import Mathlib

/-!
Verification of the okx_auto trading core against its specification.

The Python sources are shallowly embedded: prices, sizes, balances and
timestamps are modelled as rationals (`ℚ`), machine integers as `ℕ`/`ℤ`,
Python dicts as association lists with first-match lookup, the sorted
price lists as plain `List ℚ` maintained by a `bisect.insort` analogue,
and `deque(maxlen=100)` as a list with an explicit capacity-bounded push.
Stateful methods are embedded as explicit state-passing functions.
-/

/- ## Python dict as association list (first-match lookup, in-place update) -/

/-- `d[k]` lookup: first pair whose key equals `k` (keys are unique in all
reachable states, so this models Python dict lookup). -/
def dictGet {α : Type} (d : List (ℚ × α)) (k : ℚ) : Option α :=
  match d with
  | [] => none
  | (k', v) :: t => if k' = k then some v else dictGet t k

/-- `k in d` membership test. -/
def dictHas {α : Type} (d : List (ℚ × α)) (k : ℚ) : Bool :=
  (dictGet d k).isSome

/-- `d[k] = v`: replace the value in place if the key exists, else append
(Python dicts keep insertion order). -/
def dictSet {α : Type} (d : List (ℚ × α)) (k : ℚ) (v : α) : List (ℚ × α) :=
  match d with
  | [] => [(k, v)]
  | (k', v') :: t => if k' = k then (k, v) :: t else (k', v') :: dictSet t k v

/-- `del d[k]`: drop the first (only) pair with key `k`. -/
def dictDel {α : Type} (d : List (ℚ × α)) (k : ℚ) : List (ℚ × α) :=
  match d with
  | [] => []
  | (k', v') :: t => if k' = k then t else (k', v') :: dictDel t k

/- ## Sorted price lists -/

/-- `bisect.insort(l, x)`: insert `x` into the ascending list `l`, after any
elements equal to `x` (insort_right). -/
def insort (x : ℚ) (l : List ℚ) : List ℚ :=
  match l with
  | [] => [x]
  | y :: t => if x < y then x :: y :: t else y :: insort x t

/-- `l.remove(x)` wrapped in `try/except ValueError: pass`: drop the first
occurrence of `x` if present, else leave the list unchanged. -/
def listRemove (x : ℚ) (l : List ℚ) : List ℚ :=
  match l with
  | [] => []
  | y :: t => if y = x then t else y :: listRemove x t

/- ## f"{x:.0f}" rendering: round-half-even to an integer, decimal digits -/

/-- Python's float formatting rounds ties to the nearest even integer. -/
def roundHalfEven (q : ℚ) : ℤ :=
  let f : ℤ := ⌊q⌋
  let r : ℚ := q - (f : ℚ)
  if r < 1/2 then f
  else if 1/2 < r then f + 1
  else if f % 2 = 0 then f else f + 1

/-- `f"{q:.0f}"`. -/
def fmt0f (q : ℚ) : String :=
  toString (roundHalfEven q)

/- ## CRC32 (zlib.crc32), reflected polynomial 0xEDB88320, over byte lists -/

/-- One bit-round of the reflected CRC32. -/
def crcRound (c : ℕ) : ℕ :=
  if c % 2 = 1 then Nat.xor (c / 2) 0xEDB88320 else c / 2

/-- Absorb one byte into the running CRC. -/
def crcByte (c b : ℕ) : ℕ :=
  crcRound^[8] (Nat.xor c b)

/-- `zlib.crc32(bs)`: init `0xFFFFFFFF`, absorb every byte, final xor. -/
def crc32 (bs : List ℕ) : ℕ :=
  Nat.xor (bs.foldl crcByte 0xFFFFFFFF) 0xFFFFFFFF

/-- UTF-8 bytes of a string; every string this development hashes is pure
ASCII (digits, `:`, `-`), where UTF-8 coincides with the code points. -/
def strBytes (s : String) : List ℕ :=
  s.data.map Char.toNat

/- ## pro_orderbook.py : OrderBookLevel and ProfessionalOrderBook state -/

/-- `OrderBookLevel` (pro_orderbook.py). `is_iceberg` is never written. -/
structure OrderBookLevel where
  price : ℚ
  size : ℚ
  orders_count : ℕ
  is_iceberg : Bool := false
deriving DecidableEq, Repr

/-- The book state of `ProfessionalOrderBook`: the two price→level dicts,
the sorted price lists (`sorted_bids` stores *negated* prices, ascending,
exactly as the source does), the last accepted checksum and the counters.
The OFI history deques are passed separately (see `OfiHist`). -/
structure Book where
  bids : List (ℚ × OrderBookLevel)
  asks : List (ℚ × OrderBookLevel)
  sorted_bids : List ℚ
  sorted_asks : List ℚ
  checksum : ℕ
  update_count : ℕ
  error_count : ℕ
deriving DecidableEq, Repr

/-- One bid entry of `update_increment`: size 0 deletes (dict and sorted
list), otherwise insert/update (insort only when the price is new). -/
def update_bid_level (s : Book) (price size : ℚ) (oc : ℕ) : Book :=
  if size = 0 then
    if dictHas s.bids price then
      { s with bids := dictDel s.bids price,
               sorted_bids := listRemove (-price) s.sorted_bids }
    else s
  else
    let sb := if dictHas s.bids price then s.sorted_bids
              else insort (-price) s.sorted_bids
    { s with bids := dictSet s.bids price ⟨price, size, oc, false⟩,
             sorted_bids := sb }

/-- One ask entry of `update_increment` (ask prices are stored un-negated). -/
def update_ask_level (s : Book) (price size : ℚ) (oc : ℕ) : Book :=
  if size = 0 then
    if dictHas s.asks price then
      { s with asks := dictDel s.asks price,
               sorted_asks := listRemove price s.sorted_asks }
    else s
  else
    let sa := if dictHas s.asks price then s.sorted_asks
              else insort price s.sorted_asks
    { s with asks := dictSet s.asks price ⟨price, size, oc, false⟩,
             sorted_asks := sa }

/-- `get_bids(levels)`: walk the first `levels` sorted (negated) prices,
un-negate, and report `(price, size)` for those present in the dict. -/
def get_bids (s : Book) (levels : ℕ) : List (ℚ × ℚ) :=
  (s.sorted_bids.take levels).filterMap
    (fun np => (dictGet s.bids (-np)).map (fun lvl => (-np, lvl.size)))

/-- `get_asks(levels)`. -/
def get_asks (s : Book) (levels : ℕ) : List (ℚ × ℚ) :=
  (s.sorted_asks.take levels).filterMap
    (fun p => (dictGet s.asks p).map (fun lvl => (p, lvl.size)))

/-- `_calculate_checksum`: concatenate `f"{price:.0f}:{size:.0f}:"` for the
top 25 bids then the top 25 asks, CRC32 the bytes, mask to 32 bits. -/
def calculate_checksum (s : Book) : ℕ :=
  let parts := get_bids s 25 ++ get_asks s 25
  let str := parts.foldl
    (fun acc pr => acc ++ fmt0f pr.1 ++ ":" ++ fmt0f pr.2 ++ ":") ""
  Nat.land (crc32 (strBytes str)) 0xFFFFFFFF

/-- The two entry loops of `update_increment`: all bid entries in message
order, then all ask entries. -/
def apply_levels (s : Book) (bidLevels askLevels : List (ℚ × ℚ × ℕ)) : Book :=
  askLevels.foldl (fun st l => update_ask_level st l.1 l.2.1 l.2.2)
    (bidLevels.foldl (fun st l => update_bid_level st l.1 l.2.1 l.2.2) s)

/-- `update_increment(data)`: apply all bid entries then all ask entries,
recompute the checksum; on mismatch bump `error_count` and return `False`
with the updated state committed (no rollback, stored checksum and
`update_count` untouched); on match store the carried checksum and bump
`update_count`. -/
def update_increment (s : Book) (bidLevels askLevels : List (ℚ × ℚ × ℕ))
    (carried : ℕ) : Bool × Book :=
  let s2 := apply_levels s bidLevels askLevels
  let c := calculate_checksum s2
  if c = carried then
    (true, { s2 with checksum := carried, update_count := s2.update_count + 1 })
  else
    (false, { s2 with error_count := s2.error_count + 1 })

/-- `get_best_bid()`: head of the sorted list when present in the dict,
else the `(0.0, 0.0)` sentinel. -/
def get_best_bid (s : Book) : ℚ × ℚ :=
  match s.sorted_bids with
  | [] => (0, 0)
  | np :: _ =>
    match dictGet s.bids (-np) with
    | some lvl => (-np, lvl.size)
    | none => (0, 0)

/-- `get_best_ask()`. -/
def get_best_ask (s : Book) : ℚ × ℚ :=
  match s.sorted_asks with
  | [] => (0, 0)
  | p :: _ =>
    match dictGet s.asks p with
    | some lvl => (p, lvl.size)
    | none => (0, 0)

/-- `get_mid_price()`: average of both best prices, falling back to the
non-empty side, else 0. -/
def get_mid_price (s : Book) : ℚ :=
  let bp := (get_best_bid s).1
  let ap := (get_best_ask s).1
  if 0 < bp ∧ 0 < ap then (bp + ap) / 2
  else if 0 < bp then bp
  else if 0 < ap then ap
  else 0

/-- `get_wmp()`: `(bidPx*askSz + askPx*bidSz)/(askSz + bidSz)`; the source
falls back to the mid price both when both sizes are 0 (explicit guard) and
when the denominator is 0 (ZeroDivisionError caught by its `except`), which
the single 0-denominator test below covers. -/
def get_wmp (s : Book) : ℚ :=
  let bb := get_best_bid s
  let ba := get_best_ask s
  if ba.2 + bb.2 = 0 then get_mid_price s
  else (bb.1 * ba.2 + ba.1 * bb.2) / (ba.2 + bb.2)

/-- `get_spread()`: `ask - bid` when both best prices are positive, else 0. -/
def get_spread (s : Book) : ℚ :=
  let bp := (get_best_bid s).1
  let ap := (get_best_ask s).1
  if 0 < bp ∧ 0 < ap then ap - bp else 0

/-- `get_spread_bps()`: `spread/mid * 10000` when the mid price is
positive, else 0. -/
def get_spread_bps (s : Book) : ℚ :=
  let sp := get_spread s
  let mid := get_mid_price s
  if 0 < mid then sp / mid * 10000 else 0

/- ## OFI history (the two deque(maxlen=100) fields) and calculate_ofi -/

/-- One entry of `bids_history`/`asks_history`: best price, size, time. -/
structure BASample where
  price : ℚ
  size : ℚ
  time : ℚ
deriving DecidableEq, Repr

/-- `deque(maxlen=cap).append(e)`: append and drop the oldest entry when
the capacity is exceeded. -/
def dequePush {α : Type} (cap : ℕ) (l : List α) (e : α) : List α :=
  let l' := l ++ [e]
  if cap < l'.length then l'.tail else l'

/-- The pair of history deques owned by `ProfessionalOrderBook`, passed
explicitly since `calculate_ofi` mutates them. -/
structure OfiHist where
  bids_history : List BASample
  asks_history : List BASample
deriving DecidableEq, Repr

/-- `recent[-1]["size"] - recent[0]["size"]` (only evaluated on non-empty
lists; 0 is a don't-care default). -/
def sizeChange (l : List BASample) : ℚ :=
  ((l.getLast?.map BASample.size).getD 0) - ((l.head?.map BASample.size).getD 0)

/-- The OFI value `calculate_ofi` reads off the already-appended histories:
filter both to the time window, require at least two samples in each, and
return (bid change) − (ask change). -/
def ofiValue (window now : ℚ) (bh ah : List BASample) : ℚ :=
  let rb := bh.filter (fun b => now - b.time ≤ window)
  let ra := ah.filter (fun a => now - a.time ≤ window)
  if rb.length < 2 ∨ ra.length < 2 then 0
  else sizeChange rb - sizeChange ra

/-- `calculate_ofi(timeframe)`: record the current best bid/ask into both
histories (evicting at 100 entries), then compute the windowed OFI.
Returns the value together with the mutated histories. -/
def calculate_ofi (s : Book) (h : OfiHist) (timeframe : String) (now : ℚ) :
    ℚ × OfiHist :=
  let bb := get_best_bid s
  let ba := get_best_ask s
  let bh := dequePush 100 h.bids_history ⟨bb.1, bb.2, now⟩
  let ah := dequePush 100 h.asks_history ⟨ba.1, ba.2, now⟩
  let window : ℚ := if timeframe = "1s" then 1 else 5
  (ofiValue window now bh ah, ⟨bh, ah⟩)

/- ## detect_liquidity_void / detect_wall -/

/-- Scan adjacent ask levels for `(next-cur)/cur > threshold`; `none`
models the ZeroDivisionError the Python code would raise on a zero price
(caught by the enclosing `except`, which then discards every gap found). -/
def voidScanAsks (l : List (ℚ × ℚ)) (thr : ℚ) : Option (List (ℚ × ℚ)) :=
  match l with
  | [] => some []
  | [_] => some []
  | (p1, _) :: (p2, s2) :: t =>
    if p1 = 0 then none
    else
      (voidScanAsks ((p2, s2) :: t) thr).map
        (fun rest => if (p2 - p1) / p1 > thr then (p1, p2) :: rest else rest)

/-- Scan adjacent bid levels for `(cur-next)/cur > threshold`; gaps are
reported as `(next, cur)` (low, high), mirroring the source. -/
def voidScanBids (l : List (ℚ × ℚ)) (thr : ℚ) : Option (List (ℚ × ℚ)) :=
  match l with
  | [] => some []
  | [_] => some []
  | (p1, _) :: (p2, s2) :: t =>
    if p1 = 0 then none
    else
      (voidScanBids ((p2, s2) :: t) thr).map
        (fun rest => if (p1 - p2) / p1 > thr then (p2, p1) :: rest else rest)

/-- `detect_liquidity_void(direction, threshold, _)`: asks scanned first
(direction above/both), then bids (below/both), over the top 50 levels;
a single try block wraps both loops, so an exception anywhere returns `[]`. -/
def detect_liquidity_void (s : Book) (direction : String) (thr : ℚ) :
    List (ℚ × ℚ) :=
  let above := if direction = "above" ∨ direction = "both"
               then voidScanAsks (get_asks s 50) thr else some []
  let below := if direction = "below" ∨ direction = "both"
               then voidScanBids (get_bids s 50) thr else some []
  match above, below with
  | some a, some b => a ++ b
  | _, _ => []

/-- `detect_wall(min_depth, levels)`: the first level — bids in price
priority first, then asks — whose size reaches `min_depth`. -/
def detect_wall (s : Book) (min_depth : ℚ) (levels : ℕ) :
    Option (String × ℚ × ℚ) :=
  match (get_bids s levels).find? (fun pr => min_depth ≤ pr.2) with
  | some (p, sz) => some ("bid", p, sz)
  | none =>
    match (get_asks s levels).find? (fun pr => min_depth ≤ pr.2) with
    | some (p, sz) => some ("ask", p, sz)
    | none => none

/- ## OrderBookFeatures and calculate_features -/

/-- `OrderBookFeatures` (pro_orderbook.py). -/
structure OrderBookFeatures where
  best_bid : ℚ := 0
  best_ask : ℚ := 0
  mid_price : ℚ := 0
  spread : ℚ := 0
  spread_bps : ℚ := 0
  bid_depth_5 : ℚ := 0
  ask_depth_5 : ℚ := 0
  ofi_1s : ℚ := 0
  ofi_5s : ℚ := 0
  wmp : ℚ := 0
  liquidity_void_above : List (ℚ × ℚ) := []
  liquidity_void_below : List (ℚ × ℚ) := []
  buy_pressure : ℚ := 0
  sell_pressure : ℚ := 0
  has_wall : Bool := false
  wall_side : String := ""
  wall_price : ℚ := 0
  wall_depth : ℚ := 0
deriving DecidableEq, Repr

/-- `calculate_features()`: the full MicrostructureSnapshot. The two
`calculate_ofi` calls mutate the history deques, which are threaded
through and returned. -/
def calculate_features (s : Book) (h : OfiHist) (now : ℚ) :
    OrderBookFeatures × OfiHist :=
  let bb := get_best_bid s
  let ba := get_best_ask s
  let r1 := calculate_ofi s h "1s" now
  let r5 := calculate_ofi s r1.2 "5s" now
  let voids := detect_liquidity_void s "both" (2/1000)
  let wall := detect_wall s 50 20
  let f : OrderBookFeatures :=
    { best_bid := bb.1, bid_depth_5 := bb.2
      best_ask := ba.1, ask_depth_5 := ba.2
      mid_price := get_mid_price s
      spread := get_spread s
      spread_bps := get_spread_bps s
      wmp := get_wmp s
      ofi_1s := r1.1, ofi_5s := r5.1
      liquidity_void_above := voids.filter (fun v => v.1 < v.2)
      liquidity_void_below := voids.filter (fun v => v.2 < v.1)
      has_wall := wall.isSome
      wall_side := ((wall.map (fun w => w.1)).getD "")
      wall_price := ((wall.map (fun w => w.2.1)).getD 0)
      wall_depth := ((wall.map (fun w => w.2.2)).getD 0)
      buy_pressure := if 0 < r1.1 then r1.1 else 0
      sell_pressure := if r1.1 < 0 then |r1.1| else 0 }
  (f, r5.2)

/- ## microstructure_features.py : MicrostructureFeatures -/

/-- Ordinary-least-squares slope of `np.polyfit(arange(n), ys, 1)[0]` for
`n ≥ 2`: `(n·Σxy − Σx·Σy) / (n·Σx² − (Σx)²)` with x-values `0..n-1`. -/
def olsSlope (ys : List ℚ) : ℚ :=
  let pts := ys.enum
  let n : ℚ := ys.length
  let sx : ℚ := (pts.map (fun p => (p.1 : ℚ))).sum
  let sxx : ℚ := (pts.map (fun p => ((p.1 : ℚ)) ^ 2)).sum
  let sy : ℚ := ys.sum
  let sxy : ℚ := (pts.map (fun p => (p.1 : ℚ) * p.2)).sum
  (n * sxy - sx * sy) / (n * sxx - sx ^ 2)

/-- `get_ofi_trend(window)` over the `ofi_history` deque: "stable" with
fewer than `window` samples; otherwise classify the OLS slope of the last
`window` samples (Python's `list[-window:]` is the whole list for
window = 0).  A single recent sample makes `np.polyfit` return the
minimum-norm solution, slope 0, hence "stable"; an empty one raises
(caught, "stable") — both are the `length < 2` branch. -/
def get_ofi_trend (hist : List ℚ) (window : ℕ) : String :=
  if hist.length < window then "stable"
  else
    let recent := if window = 0 then hist else hist.drop (hist.length - window)
    if recent.length < 2 then "stable"
    else
      let slope := olsSlope recent
      if slope > 1/100 then "rising"
      else if slope < -(1/100) then "falling"
      else "stable"

/-- The mutable state of `MicrostructureFeatures` that `update()` touches:
the order book's history deques plus the `ofi_history` deque (the spread
and depth histories play no role in the claims' functions but are carried
for faithfulness). -/
structure MicroState where
  hist : OfiHist
  ofi_history : List ℚ
  spread_history : List ℚ
  depth_history : List (ℚ × ℚ × ℚ)
deriving DecidableEq, Repr

/-- `MicrostructureFeatures.update()`: recompute the snapshot (mutating
the book's deques) and append `ofi_1s`, `spread_bps` and the depth pair to
the bounded histories. -/
def microUpdate (s : Book) (m : MicroState) (now : ℚ) : MicroState :=
  let (f, h') := calculate_features s m.hist now
  { hist := h'
    ofi_history := dequePush 100 m.ofi_history f.ofi_1s
    spread_history := dequePush 100 m.spread_history f.spread_bps
    depth_history := dequePush 100 m.depth_history (f.bid_depth_5, f.ask_depth_5, now) }

/- ## kill_switch.py : RiskKillSwitch -/

/-- The state of `RiskKillSwitch` observed by one monitor tick.
`cancel_sweeps` counts executions of `_trigger`'s cancel-all loop (one
best-effort sweep across all positions per trip); `cancel_calls` counts
individual `cancel_all_orders` invocations. -/
structure KillSwitchState where
  is_triggered : Bool
  trigger_reason : String
  trigger_time : Option ℚ
  daily_start_balance : ℚ
  current_balance : ℚ
  latency_samples : List ℚ
  cancel_sweeps : ℕ
  cancel_calls : ℕ
deriving DecidableEq, Repr

/-- `max_daily_loss_ratio = 0.05`. -/
def maxDailyLossRatio : ℚ := 5/100

/-- `max_latency_ms = 100`. -/
def maxLatencyMs : ℚ := 100

/-- `_trigger(reason)`: set the flag, record reason and time, and cancel
all orders for every known position. -/
def ksTrigger (s : KillSwitchState) (reason : String) (now : ℚ)
    (positions : ℕ) : KillSwitchState :=
  { s with is_triggered := true
           trigger_reason := reason
           trigger_time := some now
           cancel_sweeps := s.cancel_sweeps + 1
           cancel_calls := s.cancel_calls + positions }

/-- `_update_data()`: adopt the freshly fetched balance (when the fetch
returned data) and record a positive average-latency sample into the
100-entry window (`pop(0)` beyond 100). -/
def ksUpdateData (s : KillSwitchState) (balance : Option ℚ) (latency : ℚ) :
    KillSwitchState :=
  let s1 := match balance with
            | some b => { s with current_balance := b }
            | none => s
  if 0 < latency then
    let l := s1.latency_samples ++ [latency]
    { s1 with latency_samples := if 100 < l.length then l.tail else l }
  else s1

/-- `_check_conditions()`: daily loss first (strictly above 5 %), then
average latency (strictly above 100 ms); at most one trigger per tick. -/
def ksCheckConditions (s : KillSwitchState) (now : ℚ) (positions : ℕ) :
    KillSwitchState :=
  if 0 < s.daily_start_balance ∧
     (s.daily_start_balance - s.current_balance) / s.daily_start_balance >
       maxDailyLossRatio then
    ksTrigger s "daily_loss" now positions
  else if s.latency_samples ≠ [] ∧
          s.latency_samples.sum / s.latency_samples.length > maxLatencyMs then
    ksTrigger s "latency" now positions
  else s

/-- One iteration of `_monitor_loop`: while triggered it only sleeps
(nothing is re-checked and nothing is cancelled again); otherwise it
refreshes the data and checks the trip conditions. -/
def ksTick (s : KillSwitchState) (balance : Option ℚ) (latency : ℚ)
    (now : ℚ) (positions : ℕ) : KillSwitchState :=
  if s.is_triggered then s
  else ksCheckConditions (ksUpdateData s balance latency) now positions

/-- `reset()`: the explicit manual recovery. -/
def ksReset (s : KillSwitchState) : KillSwitchState :=
  { s with is_triggered := false
           trigger_reason := ""
           trigger_time := none
           daily_start_balance := s.current_balance }

/-- `is_safe()`. -/
def ksIsSafe (s : KillSwitchState) : Bool :=
  !s.is_triggered

/- ## risk_manager.py : RiskManager.pre_trade_check -/

/-- `RiskMetrics` (risk_manager.py). -/
structure RiskMetrics where
  total_balance : ℚ := 0
  available_balance : ℚ := 0
  total_position_value : ℚ := 0
  unrealized_pnl : ℚ := 0
  daily_pnl : ℚ := 0
  leverage : ℚ := 0
  daily_loss_ratio : ℚ := 0
deriving DecidableEq, Repr

/-- The `RiskManager` state `pre_trade_check` reads and writes (the limits
come from `Config`; they are state here so the claim's quantification over
"every risk-manager state" is honest). -/
structure RMState where
  metrics : RiskMetrics
  max_daily_loss : ℚ
  leverage_limit : ℚ
  max_position_size : ℚ
  emergency_stop : Bool
deriving DecidableEq, Repr

/-- Which structured rejection (or pass) reason string the check returns. -/
inductive RMReason where
  | emergencyStopActive
  | dailyLossBreached
  | positionTooLarge
  | insufficientBalance
  | leverageExceeded
  | passed
deriving DecidableEq, Repr

/-- A Python exception escaping `pre_trade_check` (it has no try block). -/
inductive PyExn where
  | zeroDivision
deriving DecidableEq, Repr

/-- `_kelly_criterion(0.55, 0.02, 0.015)`: advisory sizing cap,
`clamp((winRate·avgWin − (1−winRate)·avgLoss)/avgWin, 0, 0.25) · balance`. -/
def kelly_criterion (s : RMState) : ℚ :=
  let kf : ℚ := (55/100 * (2/100) - (45/100) * (15/1000)) / (2/100)
  s.metrics.total_balance * (max 0 (min kf (25/100)))

/-- `pre_trade_check(inst_id, side, size, price)`: the six checks in
source order.  Steps 4 and 5 divide by `leverage_limit` and
`total_balance` unguarded; a zero divisor raises ZeroDivisionError
(`Except.error`), since the method has no try/except.  Step 6 (Kelly) is
advisory: it logs but neither rejects nor mutates, so it does not affect
the returned value. -/
def pre_trade_check (s : RMState) (_inst_id _side : String) (size price : ℚ) :
    Except PyExn (Bool × RMReason × RMState) :=
  if s.emergency_stop then
    .ok (false, .emergencyStopActive, s)
  else if s.metrics.daily_loss_ratio ≤ -s.max_daily_loss then
    .ok (false, .dailyLossBreached, { s with emergency_stop := true })
  else
    if size * price > s.max_position_size then
      .ok (false, .positionTooLarge, s)
    else if s.leverage_limit = 0 then
      .error .zeroDivision
    else if s.metrics.available_balance < size * price / s.leverage_limit then
      .ok (false, .insufficientBalance, s)
    else if s.metrics.total_balance = 0 then
      .error .zeroDivision
    else if (s.metrics.total_position_value + size * price) /
              s.metrics.total_balance > s.leverage_limit then
      .ok (false, .leverageExceeded, s)
    else
      .ok (true, .passed, s)

/- ## websocket_streamer.py : callback registry and message routing -/

/-- The six channel-specific subscriber lists of `self.callbacks`;
callbacks are identified by a number, appended in registration order. -/
structure Callbacks where
  ticker : List ℕ := []
  orderbook : List ℕ := []
  trades : List ℕ := []
  liquidation : List ℕ := []
  account : List ℕ := []
  orders : List ℕ := []
deriving DecidableEq, Repr

/-- `register_callback(channel, cb)`: append to the matching list; an
unknown channel name is logged and ignored. -/
def register_callback (c : Callbacks) (channel : String) (cb : ℕ) : Callbacks :=
  if channel = "ticker" then { c with ticker := c.ticker ++ [cb] }
  else if channel = "orderbook" then { c with orderbook := c.orderbook ++ [cb] }
  else if channel = "trades" then { c with trades := c.trades ++ [cb] }
  else if channel = "liquidation" then { c with liquidation := c.liquidation ++ [cb] }
  else if channel = "account" then { c with account := c.account ++ [cb] }
  else if channel = "orders" then { c with orders := c.orders ++ [cb] }
  else c

/-- An inbound message as `_handle_message` inspects it: whether it has a
`data` field, the channel under `arg` (if any), and the `event` field. -/
structure WsMessage where
  has_data : Bool
  arg_channel : Option String
  event : Option String
deriving DecidableEq, Repr

/-- `_handle_message(data)`: for a data message, the sequence of callbacks
invoked (sequentially, in list = registration order) for the message's
channel.  Only the six literal channel names below are matched; anything
else — including "books-l2-tbt" — falls through every `elif` and invokes
nothing.  Event messages and malformed data invoke nothing. -/
def handle_message (c : Callbacks) (m : WsMessage) : List ℕ :=
  if m.has_data then
    match m.arg_channel with
    | none => []
    | some channel =>
      if channel = "tickers" then c.ticker
      else if channel = "books" then c.orderbook
      else if channel = "trades" then c.trades
      else if channel = "liquidation-orders" then c.liquidation
      else if channel = "account" then c.account
      else if channel = "orders" then c.orders
      else []
  else []

/- ## tactical_strategies.py : WallRidingStrategy -/

/-- `self.walls[inst_id][price]` entry.  tactical_strategies.py never
imports `datetime`, so the `datetime.now()` calls that would create or
refresh one of these raise `NameError`; no entry can ever be constructed
at runtime.  The type is kept for a faithful state shape. -/
structure WallInfo where
  first_seen : ℚ
  last_seen : ℚ
  depth : ℚ
deriving DecidableEq, Repr

/-- The per-instrument wall map `self.walls`. -/
abbrev WallMap : Type := List (String × List (ℚ × WallInfo))

/-- String-keyed dict lookup (first match). -/
def sdictGet {α : Type} (d : List (String × α)) (k : String) : Option α :=
  match d with
  | [] => none
  | (k', v) :: t => if k' = k then some v else sdictGet t k

/-- String-keyed dict insert/update. -/
def sdictSet {α : Type} (d : List (String × α)) (k : String) (v : α) :
    List (String × α) :=
  match d with
  | [] => [(k, v)]
  | (k', v') :: t => if k' = k then (k, v) :: t else (k', v') :: sdictSet t k v

/-- `wall_depth_threshold = 100.0`. -/
def wallDepthThreshold : ℚ := 100

/-- `WallRidingStrategy.on_orderbook(data)` over the first 20 bid levels.
Because `datetime` is not imported in tactical_strategies.py, the first
qualifying level's `datetime.now()` raises `NameError` immediately after
the `self.walls[inst_id] = {}` initialisation, and the broad
`except Exception` swallows it; with no qualifying level, the
unconditional `current_time = datetime.now()` of the disappearance check
raises before any mutation.  The only state this method can ever commit
is an empty per-instrument dict. -/
def wall_on_orderbook (w : WallMap) (inst : String) (bids : List (ℚ × ℚ)) :
    WallMap :=
  if (bids.take 20).any (fun lv => wallDepthThreshold ≤ lv.2) then
    match sdictGet w inst with
    | some _ => w
    | none => sdictSet w inst []
  else w

/-- `WallRidingStrategy.can_ride_wall(inst_id)`: `None` for a missing or
empty per-instrument map; with a non-empty map the persistence loop's
`datetime.now()` raises `NameError` (not imported), the `except` returns
`None`.  Hence the method is constantly `None`. -/
def can_ride_wall (w : WallMap) (inst : String) : Option (ℚ × ℚ) :=
  match sdictGet w inst with
  | none => none
  | some [] => none
  | some (_ :: _) => none

/- ## Shared lemmas -/

attribute [local semireducible] Rat.add Rat.sub Rat.mul Rat.inv

theorem dictGet_dictSet_self {α : Type} (d : List (ℚ × α)) (k : ℚ) (v : α) :
    dictGet (dictSet d k v) k = some v := by
  induction d with
  | nil => simp [dictSet, dictGet]
  | cons p t ih =>
    by_cases h : p.1 = k
    · simp [dictSet, h, dictGet]
    · simp [dictSet, h, dictGet, ih]

theorem dictGet_dictSet_ne {α : Type} (d : List (ℚ × α)) (k q : ℚ) (v : α)
    (h : q ≠ k) : dictGet (dictSet d k v) q = dictGet d q := by
  have hk : k ≠ q := fun hh => h hh.symm
  induction d with
  | nil => simp [dictSet, dictGet, hk]
  | cons p t ih =>
    by_cases hp : p.1 = k
    · simp [dictSet, hp, dictGet, hk, hp ▸ hk]
    · by_cases hq : p.1 = q <;> simp [dictSet, hp, dictGet, hq, ih, h]

/- ## Claim C10 : sentinel best prices on an empty side -/

/-- Claim C10: whenever a book side is empty, `get_best_bid`
(resp. `get_best_ask`) returns the sentinel pair `(0.0, 0.0)` rather than
failing, and consequently `get_spread` and `get_spread_bps` return 0
unless both sides are non-empty. -/
theorem best_price_sentinel_spread_zero (s : Book) :
    (s.bids = [] → get_best_bid s = (0, 0)) ∧
    (s.asks = [] → get_best_ask s = (0, 0)) ∧
    (s.bids = [] ∨ s.asks = [] → get_spread s = 0 ∧ get_spread_bps s = 0) := by
  have hb : s.bids = [] → get_best_bid s = (0, 0) := by
    intro h
    cases hsb : s.sorted_bids with
    | nil => simp [get_best_bid, hsb]
    | cons np t => simp [get_best_bid, hsb, h, dictGet]
  have ha : s.asks = [] → get_best_ask s = (0, 0) := by
    intro h
    cases hsa : s.sorted_asks with
    | nil => simp [get_best_ask, hsa]
    | cons p t => simp [get_best_ask, hsa, h, dictGet]
  refine ⟨hb, ha, fun hor => ?_⟩
  have hsp : get_spread s = 0 := by
    rcases hor with h | h
    · simp [get_spread, hb h]
    · simp [get_spread, ha h]
  refine ⟨hsp, ?_⟩
  simp only [get_spread_bps, hsp]
  split <;> simp

/-- A book with one bid level and an empty ask side. -/
def emptyAskBook : Book :=
  { bids := [(100, ⟨100, 5, 1, false⟩)], asks := []
    sorted_bids := [-100], sorted_asks := []
    checksum := 0, update_count := 0, error_count := 0 }

/-- Witness for C10 at a concrete one-sided book. -/
theorem best_price_sentinel_spread_zero_witness :
    get_best_ask emptyAskBook = (0, 0) ∧
    get_spread emptyAskBook = 0 ∧ get_spread_bps emptyAskBook = 0 :=
  ⟨(best_price_sentinel_spread_zero emptyAskBook).2.1 rfl,
   ((best_price_sentinel_spread_zero emptyAskBook).2.2 (Or.inr rfl)).1,
   ((best_price_sentinel_spread_zero emptyAskBook).2.2 (Or.inr rfl)).2⟩

/- ## Claim C4 : pre-trade gate -/

/-- Claim C4 (amended): for every candidate signal and every risk-manager
state whose `total_balance` and `leverage_limit` are non-zero,
`pre_trade_check` returns a structured (passed, reason) pair and raises no
exception; it rejects whenever the emergency-stop flag is set; and
whenever the daily loss ratio is ≤ −max_daily_loss the call both rejects
and leaves the emergency-stop flag set.  (The two non-zero provisos are
forced: steps 4 and 5 divide by `leverage_limit` and `total_balance`
without a guard, see the counterexample.) -/
theorem pre_trade_check_structured (s : RMState) (inst_id side : String)
    (size price : ℚ)
    (hb : s.metrics.total_balance ≠ 0) (hl : s.leverage_limit ≠ 0) :
    (∃ out, pre_trade_check s inst_id side size price = .ok out) ∧
    (s.emergency_stop = true →
      pre_trade_check s inst_id side size price =
        .ok (false, .emergencyStopActive, s)) ∧
    (s.metrics.daily_loss_ratio ≤ -s.max_daily_loss →
      ∃ r s', pre_trade_check s inst_id side size price = .ok (false, r, s') ∧
        s'.emergency_stop = true) := by
  unfold pre_trade_check
  by_cases h1 : s.emergency_stop = true
  · rw [if_pos h1]
    exact ⟨⟨_, rfl⟩, fun _ => rfl, fun _ => ⟨_, s, rfl, h1⟩⟩
  · rw [if_neg h1]
    by_cases h2 : s.metrics.daily_loss_ratio ≤ -s.max_daily_loss
    · rw [if_pos h2]
      exact ⟨⟨_, rfl⟩, fun hh => absurd hh h1, fun _ => ⟨_, _, rfl, rfl⟩⟩
    · rw [if_neg h2]
      refine ⟨?_, fun hh => absurd hh h1, fun hh => absurd hh h2⟩
      by_cases h3 : size * price > s.max_position_size
      · rw [if_pos h3]; exact ⟨_, rfl⟩
      · rw [if_neg h3, if_neg hl]
        by_cases h5 : s.metrics.available_balance < size * price / s.leverage_limit
        · rw [if_pos h5]; exact ⟨_, rfl⟩
        · rw [if_neg h5, if_neg hb]
          by_cases h7 : (s.metrics.total_position_value + size * price) /
              s.metrics.total_balance > s.leverage_limit
          · rw [if_pos h7]; exact ⟨_, rfl⟩
          · rw [if_neg h7]; exact ⟨_, rfl⟩

/-- A healthy risk-manager state used by the C4 witness. -/
def rmHealthy : RMState :=
  { metrics := { total_balance := 1000, available_balance := 900 }
    max_daily_loss := 5/100, leverage_limit := 20, max_position_size := 1000
    emergency_stop := false }

/-- Witness for C4 at a concrete state and signal. -/
theorem pre_trade_check_structured_witness :
    rmHealthy.metrics.total_balance ≠ 0 ∧ rmHealthy.leverage_limit ≠ 0 ∧
    (∃ out, pre_trade_check rmHealthy "BTC-USDT" "buy" 1 100 = .ok out) :=
  ⟨by decide, by decide,
   (pre_trade_check_structured rmHealthy "BTC-USDT" "buy" 1 100
     (by decide) (by decide)).1⟩

/-- The `RiskManager.__init__` state (all metrics zero, config defaults).
With it, a zero-notional signal passes checks 1–4 and then step 5 divides
`(0 + 0)` by `total_balance = 0`: ZeroDivisionError escapes the method,
refuting "never raises an exception" for arbitrary states. -/
def rmFresh : RMState :=
  { metrics := {}
    max_daily_loss := 5/100, leverage_limit := 20, max_position_size := 1000
    emergency_stop := false }

/-- Counterexample to C4 as stated: on the freshly initialised state a
candidate signal makes `pre_trade_check` raise (ZeroDivisionError at the
step-5 leverage computation) instead of returning a pair. -/
theorem pre_trade_check_raises_on_zero_balance :
    pre_trade_check rmFresh "BTC-USDT" "buy" 0 0 = .error .zeroDivision := by
  rfl

/- ## Claim C9 : message routing -/

/-- A registry with one subscriber per channel and a second orderbook
subscriber registered later (ids record registration order). -/
def c9Registry : Callbacks :=
  register_callback (register_callback (register_callback (register_callback
    (register_callback (register_callback (register_callback {} "ticker" 1)
      "orderbook" 2) "trades" 3) "liquidation" 4) "account" 5) "orders" 6)
    "orderbook" 7

/-- Claim C9 is wrong about "books-l2-tbt" (code bug): `_handle_message`
matches only the six literal channel names, so a data message on channel
"books-l2-tbt" — which `stream_orderbook` explicitly offers to subscribe —
invokes no callback at all, while the other channels are routed to their
subscriber lists sequentially in registration order. -/
theorem handle_message_routing :
    handle_message c9Registry ⟨true, some "books-l2-tbt", none⟩ = [] ∧
    handle_message c9Registry ⟨true, some "books", none⟩ = [2, 7] ∧
    handle_message c9Registry ⟨true, some "tickers", none⟩ = [1] ∧
    handle_message c9Registry ⟨true, some "trades", none⟩ = [3] ∧
    handle_message c9Registry ⟨true, some "liquidation-orders", none⟩ = [4] ∧
    handle_message c9Registry ⟨true, some "account", none⟩ = [5] ∧
    handle_message c9Registry ⟨true, some "orders", none⟩ = [6] ∧
    handle_message c9Registry ⟨false, none, some "subscribe"⟩ = [] := by
  decide

/- ## Claim C2 : checksum mismatch on an incremental update -/

theorem update_bid_level_counters (s : Book) (p sz : ℚ) (oc : ℕ) :
    (update_bid_level s p sz oc).checksum = s.checksum ∧
    (update_bid_level s p sz oc).update_count = s.update_count ∧
    (update_bid_level s p sz oc).error_count = s.error_count := by
  unfold update_bid_level
  split_ifs <;> exact ⟨rfl, rfl, rfl⟩

theorem update_ask_level_counters (s : Book) (p sz : ℚ) (oc : ℕ) :
    (update_ask_level s p sz oc).checksum = s.checksum ∧
    (update_ask_level s p sz oc).update_count = s.update_count ∧
    (update_ask_level s p sz oc).error_count = s.error_count := by
  unfold update_ask_level
  split_ifs <;> exact ⟨rfl, rfl, rfl⟩

/-- The entry loops touch only the book sides, never the stored checksum
or the counters. -/
theorem apply_levels_counters (s : Book) (bids asks : List (ℚ × ℚ × ℕ)) :
    (apply_levels s bids asks).checksum = s.checksum ∧
    (apply_levels s bids asks).update_count = s.update_count ∧
    (apply_levels s bids asks).error_count = s.error_count := by
  have hb : ∀ (ls : List (ℚ × ℚ × ℕ)) (st : Book),
      ((ls.foldl (fun st l => update_bid_level st l.1 l.2.1 l.2.2) st).checksum
          = st.checksum ∧
       (ls.foldl (fun st l => update_bid_level st l.1 l.2.1 l.2.2) st).update_count
          = st.update_count ∧
       (ls.foldl (fun st l => update_bid_level st l.1 l.2.1 l.2.2) st).error_count
          = st.error_count) := by
    intro ls
    induction ls with
    | nil => intro st; exact ⟨rfl, rfl, rfl⟩
    | cons x t ih =>
      intro st
      have h1 := update_bid_level_counters st x.1 x.2.1 x.2.2
      have h2 := ih (update_bid_level st x.1 x.2.1 x.2.2)
      simp only [List.foldl_cons]
      exact ⟨h2.1.trans h1.1, h2.2.1.trans h1.2.1, h2.2.2.trans h1.2.2⟩
  have ha : ∀ (ls : List (ℚ × ℚ × ℕ)) (st : Book),
      ((ls.foldl (fun st l => update_ask_level st l.1 l.2.1 l.2.2) st).checksum
          = st.checksum ∧
       (ls.foldl (fun st l => update_ask_level st l.1 l.2.1 l.2.2) st).update_count
          = st.update_count ∧
       (ls.foldl (fun st l => update_ask_level st l.1 l.2.1 l.2.2) st).error_count
          = st.error_count) := by
    intro ls
    induction ls with
    | nil => intro st; exact ⟨rfl, rfl, rfl⟩
    | cons x t ih =>
      intro st
      have h1 := update_ask_level_counters st x.1 x.2.1 x.2.2
      have h2 := ih (update_ask_level st x.1 x.2.1 x.2.2)
      simp only [List.foldl_cons]
      exact ⟨h2.1.trans h1.1, h2.2.1.trans h1.2.1, h2.2.2.trans h1.2.2⟩
  unfold apply_levels
  have h1 := ha asks (bids.foldl (fun st l => update_bid_level st l.1 l.2.1 l.2.2) s)
  have h2 := hb bids s
  exact ⟨h1.1.trans h2.1, h1.2.1.trans h2.2.1, h1.2.2.trans h2.2.2⟩

/-- Claim C2 (amended): for every incremental update whose recomputed
checksum mismatches the carried checksum, `update_increment` returns
`False` (a recoverable error) without rolling back: `error_count`
increments by exactly 1 and the updated bid/ask state remains committed,
with the stored checksum and `update_count` left unchanged.  The code
keeps no `consistent` flag; the `False` return value is the only
inconsistency signal (see the counterexample). -/
theorem update_increment_mismatch_commits (s : Book)
    (bids asks : List (ℚ × ℚ × ℕ)) (carried : ℕ)
    (hm : calculate_checksum (apply_levels s bids asks) ≠ carried) :
    update_increment s bids asks carried =
      (false, { apply_levels s bids asks with error_count := s.error_count + 1 }) ∧
    (apply_levels s bids asks).checksum = s.checksum ∧
    (apply_levels s bids asks).update_count = s.update_count := by
  have hc := apply_levels_counters s bids asks
  refine ⟨?_, hc.1, hc.2.1⟩
  unfold update_increment
  rw [if_neg hm, hc.2.2]

/-- A one-level book whose stored checksum agrees with its state. -/
def bkSynced : Book :=
  let base : Book :=
    { bids := [(100, ⟨100, 5, 1, false⟩)], asks := []
      sorted_bids := [-100], sorted_asks := []
      checksum := 0, update_count := 0, error_count := 0 }
  { base with checksum := calculate_checksum base }

set_option maxRecDepth 10000 in
/-- Witness for C2 at a concrete mismatching delta. -/
theorem update_increment_mismatch_commits_witness :
    calculate_checksum (apply_levels bkSynced [] []) ≠ bkSynced.checksum + 1 ∧
    update_increment bkSynced [] [] (bkSynced.checksum + 1) =
      (false,
        { apply_levels bkSynced [] [] with error_count := bkSynced.error_count + 1 }) :=
  ⟨by decide,
   (update_increment_mismatch_commits bkSynced [] [] (bkSynced.checksum + 1)
      (by decide)).1⟩

set_option maxRecDepth 10000 in
/-- Counterexample to C2 as stated: after this mismatching delta the
committed state differs from the pre-state only in `error_count` — no
state component records the inconsistency (there is no `consistent`
field) — and the state still satisfies the spec's own consistency
equation "checksum recomputed from current state equals the last accepted
checksum", so no definable consistent flag "becomes false" here. -/
theorem update_increment_mismatch_no_flag :
    update_increment bkSynced [] [] (bkSynced.checksum + 1) =
      (false, { bkSynced with error_count := 1 }) ∧
    calculate_checksum (update_increment bkSynced [] [] (bkSynced.checksum + 1)).2 =
      (update_increment bkSynced [] [] (bkSynced.checksum + 1)).2.checksum := by
  exact ⟨by decide, by decide⟩

/- ## Claim C5 : wall-riding persistence (Scenario B) -/

/-- Scenario B after `k` one-second samples: a bid level at price 100 with
depth 150 (≥ threshold 100) fed to `WallRidingStrategy.on_orderbook`
`k` times, starting from an empty wall map. -/
def scenarioB (k : ℕ) : WallMap :=
  (List.range k).foldl
    (fun w _ => wall_on_orderbook w "BTC-USDT-SWAP" [(100, 150)]) []

/-- Claim C5 is right about the intent but the code is broken (code bug):
tactical_strategies.py never imports `datetime`, so every attempt to
record or age a wall raises `NameError`, which the blanket
`except Exception` swallows.  Across all six samples of Scenario B the
wall map only ever acquires an empty per-instrument dict — the level
never enters the map, no `firstSeen`/`lastSeen` exists, and
`can_ride_wall` returns `None` at every sample (in particular at the 5th
and 6th), never producing the ride signal. -/
theorem wall_riding_never_signals :
    scenarioB 6 = [("BTC-USDT-SWAP", [])] ∧
    ((List.range 7).all
      (fun k => decide (can_ride_wall (scenarioB k) "BTC-USDT-SWAP" = none)))
      = true := by
  decide

/- ## Claim C1 : the checksum string -/

/-- "rendered as … strings separated by `:`" as the claim reads: the
pieces joined with a single `:` between consecutive pieces, nothing
before the first or after the last. -/
def joinColon : List String → String
  | [] => ""
  | [x] => x
  | x :: y :: t => x ++ ":" ++ joinColon (y :: t)

/-- The rendered components of the checksum input: integer-rounded price
and size of the top 25 bid levels then the top 25 ask levels. -/
def checksumComponents (s : Book) : List String :=
  (get_bids s 25 ++ get_asks s 25).flatMap (fun pr => [fmt0f pr.1, fmt0f pr.2])

/-- One pair's contribution to the code's checksum string, followed by the
rest: `f"{price:.0f}:{size:.0f}:"` chained. -/
def chunksStr : List (ℚ × ℚ) → String
  | [] => ""
  | pr :: t => fmt0f pr.1 ++ ":" ++ fmt0f pr.2 ++ ":" ++ chunksStr t

theorem foldl_chunksStr (parts : List (ℚ × ℚ)) (a : String) :
    parts.foldl (fun acc pr => acc ++ fmt0f pr.1 ++ ":" ++ fmt0f pr.2 ++ ":") a
      = a ++ chunksStr parts := by
  induction parts generalizing a with
  | nil => simp [chunksStr, String.append_empty]
  | cons pr t ih =>
    rw [List.foldl_cons, ih]
    simp only [chunksStr, String.append_assoc]

theorem chunksStr_eq_joinColon (parts : List (ℚ × ℚ)) (h : parts ≠ []) :
    chunksStr parts =
      joinColon (parts.flatMap (fun pr => [fmt0f pr.1, fmt0f pr.2])) ++ ":" := by
  induction parts with
  | nil => exact absurd rfl h
  | cons pr t ih =>
    cases t with
    | nil =>
      simp [chunksStr, joinColon, String.append_empty, String.append_assoc]
    | cons q r =>
      have hih := ih (by simp)
      simp only [chunksStr, List.flatMap_cons, List.cons_append, List.nil_append,
        joinColon, String.append_assoc] at hih ⊢
      rw [hih]

/-- Claim C1 (amended): the checksum over every book state is CRC32
(masked to 32 bits) of the UTF-8 bytes of the integer-rounded
`price`/`size` components of the top 25 bid levels then top 25 ask levels
joined by `:` — but with one additional TRAILING `:` after the final
component (the code appends `f"{price:.0f}:{size:.0f}:"` per pair, so the
string ends in a separator; the claim's "no extra or trailing separators"
fails, see the counterexample).  Under the sorted-list invariant the bid
prices that enter the string are in strictly descending order and the ask
prices in strictly ascending order. -/
theorem calculate_checksum_spec (s : Book) :
    (calculate_checksum s =
      Nat.land (crc32 (strBytes
        (if get_bids s 25 ++ get_asks s 25 = [] then ""
         else joinColon (checksumComponents s) ++ ":"))) 0xFFFFFFFF) ∧
    (s.sorted_bids.Sorted (· < ·) →
      (∀ np ∈ s.sorted_bids, dictHas s.bids (-np)) →
      ((get_bids s 25).map Prod.fst).Sorted (· > ·)) ∧
    (s.sorted_asks.Sorted (· < ·) →
      (∀ p ∈ s.sorted_asks, dictHas s.asks p) →
      ((get_asks s 25).map Prod.fst).Sorted (· < ·)) := by
  refine ⟨?_, ?_, ?_⟩
  · unfold calculate_checksum checksumComponents
    simp only [foldl_chunksStr, String.empty_append]
    cases hp : get_bids s 25 ++ get_asks s 25 with
    | nil => rfl
    | cons pr t =>
      rw [if_neg (by simp), chunksStr_eq_joinColon (pr :: t) (by simp)]
  · intro hsort hkeys
    have hmap : (get_bids s 25).map Prod.fst =
        (s.sorted_bids.take 25).map (fun np => -np) := by
      unfold get_bids
      have hk : ∀ np ∈ s.sorted_bids.take 25, dictHas s.bids (-np) :=
        fun np hnp => hkeys np (List.take_subset 25 s.sorted_bids hnp)
      generalize s.sorted_bids.take 25 = l at hk
      induction l with
      | nil => rfl
      | cons np t ih =>
        have h1 : dictHas s.bids (-np) := hk np (by simp)
        obtain ⟨lvl, hlvl⟩ := Option.isSome_iff_exists.mp h1
        simp only [List.filterMap_cons, hlvl, Option.map_some', List.map_cons]
        exact congrArg (List.cons _) (ih (fun x hx => hk x (List.mem_cons_of_mem _ hx)))
    rw [hmap, List.Sorted, List.pairwise_map]
    have := hsort.sublist (List.take_sublist 25 s.sorted_bids)
    exact this.imp (fun h => by simpa using h)
  · intro hsort hkeys
    have hmap : (get_asks s 25).map Prod.fst = s.sorted_asks.take 25 := by
      unfold get_asks
      have hk : ∀ p ∈ s.sorted_asks.take 25, dictHas s.asks p :=
        fun p hp => hkeys p (List.take_subset 25 s.sorted_asks hp)
      generalize s.sorted_asks.take 25 = l at hk
      induction l with
      | nil => rfl
      | cons p t ih =>
        have h1 : dictHas s.asks p := hk p (by simp)
        obtain ⟨lvl, hlvl⟩ := Option.isSome_iff_exists.mp h1
        simp only [List.filterMap_cons, hlvl, Option.map_some', List.map_cons]
        exact congrArg (List.cons _) (ih (fun x hx => hk x (List.mem_cons_of_mem _ hx)))
    rw [hmap]
    exact hsort.sublist (List.take_sublist 25 s.sorted_asks)

/-- A two-sided one-level book (bid 100 size 5, ask 101 size 2). -/
def bkBidAsk : Book :=
  { bids := [(100, ⟨100, 5, 1, false⟩)], asks := [(101, ⟨101, 2, 1, false⟩)]
    sorted_bids := [-100], sorted_asks := [101]
    checksum := 0, update_count := 0, error_count := 0 }

set_option maxRecDepth 10000 in
/-- Witness for C1 at the concrete two-sided book. -/
theorem calculate_checksum_spec_witness :
    bkBidAsk.sorted_bids.Sorted (· < ·) ∧
    (∀ np ∈ bkBidAsk.sorted_bids, dictHas bkBidAsk.bids (-np)) ∧
    calculate_checksum bkBidAsk =
      Nat.land (crc32 (strBytes
        (if get_bids bkBidAsk 25 ++ get_asks bkBidAsk 25 = [] then ""
         else joinColon (checksumComponents bkBidAsk) ++ ":"))) 0xFFFFFFFF ∧
    ((get_bids bkBidAsk 25).map Prod.fst).Sorted (· > ·) :=
  ⟨by decide, by decide,
   (calculate_checksum_spec bkBidAsk).1,
   (calculate_checksum_spec bkBidAsk).2.1 (by decide) (by decide)⟩

set_option maxRecDepth 10000 in
/-- Counterexample to C1 as stated: on the two-sided book the code's
checksum (over "100:5:101:2:", trailing separator) differs from CRC32 of
exactly the separator-joined string "100:5:101:2". -/
theorem calculate_checksum_not_plain_join :
    calculate_checksum bkBidAsk ≠
      Nat.land (crc32 (strBytes (joinColon (checksumComponents bkBidAsk))))
        0xFFFFFFFF := by
  decide

/- ## Claim C6 : delete then re-insert leaves no residual state -/

theorem dictGet_none_of_not_mem {α : Type} (d : List (ℚ × α)) (k : ℚ)
    (h : k ∉ d.map Prod.fst) : dictGet d k = none := by
  induction d with
  | nil => rfl
  | cons p t ih =>
    simp only [List.map_cons, List.mem_cons, not_or] at h
    have h1 : ¬p.1 = k := fun hh => h.1 hh.symm
    simp [dictGet, h1, ih h.2]

theorem dictGet_dictDel_self {α : Type} (d : List (ℚ × α)) (k : ℚ)
    (h : (d.map Prod.fst).Nodup) : dictGet (dictDel d k) k = none := by
  induction d with
  | nil => rfl
  | cons p t ih =>
    simp only [List.map_cons, List.nodup_cons] at h
    by_cases hp : p.1 = k
    · simp only [dictDel, if_pos hp]
      exact dictGet_none_of_not_mem t k (hp ▸ h.1)
    · simp [dictDel, hp, dictGet, ih h.2]

theorem dictGet_dictDel_ne {α : Type} (d : List (ℚ × α)) (k q : ℚ)
    (h : q ≠ k) : dictGet (dictDel d k) q = dictGet d q := by
  induction d with
  | nil => rfl
  | cons p t ih =>
    have hk : ¬k = q := fun hh => h hh.symm
    by_cases hp : p.1 = k
    · simp [dictDel, hp, dictGet, hk]
    · simp [dictDel, hp, dictGet, ih]

theorem not_mem_listRemove_self (l : List ℚ) (x : ℚ) (h : l.Nodup) :
    x ∉ listRemove x l := by
  induction l with
  | nil => simp [listRemove]
  | cons y t ih =>
    simp only [List.nodup_cons] at h
    by_cases hy : y = x
    · simp only [listRemove, if_pos hy]
      exact hy ▸ h.1
    · simp only [listRemove, if_neg hy]
      intro hmem
      rcases List.mem_cons.mp hmem with hh | hh
      · exact hy hh.symm
      · exact ih h.2 hh

/-- Removing a present element from a strictly sorted list and
re-insorting it restores the original list. -/
theorem insort_listRemove (l : List ℚ) (x : ℚ) (hs : l.Sorted (· < ·))
    (hx : x ∈ l) : insort x (listRemove x l) = l := by
  induction l with
  | nil => cases hx
  | cons y t ih =>
    rcases List.sorted_cons.mp hs with ⟨hy, ht⟩
    by_cases hyx : y = x
    · subst hyx
      simp only [listRemove, if_pos rfl]
      cases t with
      | nil => rfl
      | cons z r =>
        have hz : y < z := hy z (by simp)
        simp [insort, hz]
    · have hxt : x ∈ t := by
        rcases List.mem_cons.mp hx with hh | hh
        · exact absurd hh.symm hyx
        · exact hh
      have hylt : y < x := hy x hxt
      simp only [listRemove, if_neg hyx, insort,
        if_neg (not_lt.mpr (le_of_lt hylt))]
      rw [ih ht hxt]

/-- Claim C6: on either book side, applying a delta entry with size 0 for
a present price removes the level from both the price map and the sorted
price list; re-applying the same price with a non-zero size restores the
level with exactly the new size and orders count, the sorted price list
returns to its original value, and every other price's lookup is
untouched — the state behaves as if the level had been freshly
inserted.  (Bid side; the ask side is the second half.) -/
theorem delta_remove_reinsert_no_residual (s : Book) (p sz : ℚ)
    (oc oc' : ℕ) (lvl lvl' : OrderBookLevel)
    (hbsort : s.sorted_bids.Sorted (· < ·))
    (hbkeys : (s.bids.map Prod.fst).Nodup)
    (hbmem : dictGet s.bids p = some lvl → (-p) ∈ s.sorted_bids)
    (hasort : s.sorted_asks.Sorted (· < ·))
    (hakeys : (s.asks.map Prod.fst).Nodup)
    (hamem : dictGet s.asks p = some lvl' → p ∈ s.sorted_asks)
    (hsz : sz ≠ 0) :
    (dictGet s.bids p = some lvl →
      (dictGet (update_bid_level s p 0 oc).bids p = none ∧
       (-p) ∉ (update_bid_level s p 0 oc).sorted_bids) ∧
      (dictGet (update_bid_level (update_bid_level s p 0 oc) p sz oc').bids p
         = some ⟨p, sz, oc', false⟩ ∧
       (update_bid_level (update_bid_level s p 0 oc) p sz oc').sorted_bids
         = s.sorted_bids ∧
       ∀ q, q ≠ p →
         dictGet (update_bid_level (update_bid_level s p 0 oc) p sz oc').bids q
           = dictGet s.bids q)) ∧
    (dictGet s.asks p = some lvl' →
      (dictGet (update_ask_level s p 0 oc).asks p = none ∧
       p ∉ (update_ask_level s p 0 oc).sorted_asks) ∧
      (dictGet (update_ask_level (update_ask_level s p 0 oc) p sz oc').asks p
         = some ⟨p, sz, oc', false⟩ ∧
       (update_ask_level (update_ask_level s p 0 oc) p sz oc').sorted_asks
         = s.sorted_asks ∧
       ∀ q, q ≠ p →
         dictGet (update_ask_level (update_ask_level s p 0 oc) p sz oc').asks q
           = dictGet s.asks q)) := by
  constructor
  · intro hp
    have hhas : dictHas s.bids p = true := by simp [dictHas, hp]
    have hmid : update_bid_level s p 0 oc =
        { s with bids := dictDel s.bids p,
                 sorted_bids := listRemove (-p) s.sorted_bids } := by
      simp [update_bid_level, hhas]
    rw [hmid]
    have hdel : dictGet (dictDel s.bids p) p = none :=
      dictGet_dictDel_self s.bids p hbkeys
    have hbnodup : s.sorted_bids.Nodup := hbsort.imp ne_of_lt
    refine ⟨⟨hdel, not_mem_listRemove_self s.sorted_bids (-p) hbnodup⟩, ?_⟩
    have hhas2 : dictHas (dictDel s.bids p) p = false := by
      simp [dictHas, hdel]
    have hr : update_bid_level
        { s with bids := dictDel s.bids p,
                 sorted_bids := listRemove (-p) s.sorted_bids } p sz oc' =
        { s with bids := dictSet (dictDel s.bids p) p ⟨p, sz, oc', false⟩,
                 sorted_bids := insort (-p) (listRemove (-p) s.sorted_bids) } := by
      simp [update_bid_level, hsz, hhas2]
    rw [hr]
    refine ⟨dictGet_dictSet_self _ p _, ?_, fun q hq => ?_⟩
    · show insort (-p) (listRemove (-p) s.sorted_bids) = s.sorted_bids
      exact insort_listRemove s.sorted_bids (-p) hbsort (hbmem hp)
    · show dictGet (dictSet (dictDel s.bids p) p ⟨p, sz, oc', false⟩) q
        = dictGet s.bids q
      rw [dictGet_dictSet_ne _ p q _ hq]
      exact dictGet_dictDel_ne s.bids p q hq
  · intro hp
    have hhas : dictHas s.asks p = true := by simp [dictHas, hp]
    have hmid : update_ask_level s p 0 oc =
        { s with asks := dictDel s.asks p,
                 sorted_asks := listRemove p s.sorted_asks } := by
      simp [update_ask_level, hhas]
    rw [hmid]
    have hdel : dictGet (dictDel s.asks p) p = none :=
      dictGet_dictDel_self s.asks p hakeys
    have hanodup : s.sorted_asks.Nodup := hasort.imp ne_of_lt
    refine ⟨⟨hdel, not_mem_listRemove_self s.sorted_asks p hanodup⟩, ?_⟩
    have hhas2 : dictHas (dictDel s.asks p) p = false := by
      simp [dictHas, hdel]
    have hr : update_ask_level
        { s with asks := dictDel s.asks p,
                 sorted_asks := listRemove p s.sorted_asks } p sz oc' =
        { s with asks := dictSet (dictDel s.asks p) p ⟨p, sz, oc', false⟩,
                 sorted_asks := insort p (listRemove p s.sorted_asks) } := by
      simp [update_ask_level, hsz, hhas2]
    rw [hr]
    refine ⟨dictGet_dictSet_self _ p _, ?_, fun q hq => ?_⟩
    · show insort p (listRemove p s.sorted_asks) = s.sorted_asks
      exact insort_listRemove s.sorted_asks p hasort (hamem hp)
    · show dictGet (dictSet (dictDel s.asks p) p ⟨p, sz, oc', false⟩) q
        = dictGet s.asks q
      rw [dictGet_dictSet_ne _ p q _ hq]
      exact dictGet_dictDel_ne s.asks p q hq

/-- Witness for C6 at the concrete two-sided book (bid side, price 100
deleted then re-inserted with size 7). -/
theorem delta_remove_reinsert_no_residual_witness :
    dictGet bkBidAsk.bids 100 = some ⟨100, 5, 1, false⟩ ∧
    dictGet (update_bid_level bkBidAsk 100 0 0).bids 100 = none ∧
    dictGet (update_bid_level (update_bid_level bkBidAsk 100 0 0) 100 7 2).bids 100
      = some ⟨100, 7, 2, false⟩ ∧
    (update_bid_level (update_bid_level bkBidAsk 100 0 0) 100 7 2).sorted_bids
      = bkBidAsk.sorted_bids := by
  have h := delta_remove_reinsert_no_residual bkBidAsk 100 7 0 2
    ⟨100, 5, 1, false⟩ ⟨101, 2, 1, false⟩
    (by decide) (by decide) (fun _ => by decide)
    (by decide) (by decide) (fun h => absurd h (by decide)) (by decide)
  have h1 := h.1 (by decide)
  exact ⟨by decide, h1.1.1, h1.2.1, h1.2.2.1⟩

/- ## Claim C8 : ofi_trend (Scenario C) -/

/-- The Scenario C book at sample `k`: best-bid size `10·(k+1)`
(monotonically increasing 10, 20, …, 100), stable best ask. -/
def scBook (k : ℕ) : Book :=
  { bids := [(100, ⟨100, 10 * ((k : ℚ) + 1), 1, false⟩)]
    asks := [(101, ⟨101, 7, 1, false⟩)]
    sorted_bids := [-100], sorted_asks := [101]
    checksum := 0, update_count := 0, error_count := 0 }

/-- Scenario C: ten `update()` calls at one-second intervals over the
increasing-bid books, starting from empty histories. -/
def scenarioC : MicroState :=
  (List.range 10).foldl (fun m k => microUpdate (scBook k) m (k : ℚ))
    ⟨⟨[], []⟩, [], [], []⟩

set_option maxRecDepth 40000 in
/-- Claim C8: `get_ofi_trend(window)` returns "stable" whenever fewer
than `window` OFI samples exist; otherwise it classifies the
ordinary-least-squares slope over the last `window` samples — "rising"
above 0.01, "falling" below −0.01, else "stable"; and feeding 10
monotonically increasing best-bid sizes with a stable best ask through
the update pipeline yields `ofi_trend(10) = "rising"` (Scenario C). -/
theorem ofi_trend_spec :
    (∀ (w : ℕ) (hist : List ℚ), 2 ≤ w → hist.length < w →
      get_ofi_trend hist w = "stable") ∧
    (∀ (w : ℕ) (hist : List ℚ), 2 ≤ w → w ≤ hist.length →
      get_ofi_trend hist w =
        (if olsSlope (hist.drop (hist.length - w)) > 1/100 then "rising"
         else if olsSlope (hist.drop (hist.length - w)) < -(1/100) then "falling"
         else "stable")) ∧
    get_ofi_trend scenarioC.ofi_history 10 = "rising" := by
  refine ⟨?_, ?_, by decide⟩
  · intro w hist hw hlen
    simp [get_ofi_trend, hlen]
  · intro w hist hw hlen
    have h1 : ¬hist.length < w := not_lt.mpr hlen
    have hw0 : w ≠ 0 := by omega
    simp only [get_ofi_trend, if_neg h1, hw0, if_false, ite_false]
    rw [List.length_drop, Nat.sub_sub_self hlen]
    rw [if_neg (by omega)]

/-- Witness for C8's quantified conjuncts at concrete inputs. -/
theorem ofi_trend_spec_witness :
    (2 ≤ 3 ∧ [(1 : ℚ), 2].length < 3 ∧ get_ofi_trend [(1 : ℚ), 2] 3 = "stable") ∧
    (2 ≤ 2 ∧ 2 ≤ [(0 : ℚ), 100].length ∧
      get_ofi_trend [(0 : ℚ), 100] 2 =
        (if olsSlope ([(0 : ℚ), 100].drop ([(0 : ℚ), 100].length - 2)) > 1/100
         then "rising"
         else if olsSlope ([(0 : ℚ), 100].drop ([(0 : ℚ), 100].length - 2)) <
                -(1/100) then "falling"
         else "stable")) :=
  ⟨⟨by decide, by decide, ofi_trend_spec.1 3 [1, 2] (by decide) (by decide)⟩,
   ⟨by decide, by decide, ofi_trend_spec.2.1 2 [0, 100] (by decide) (by decide)⟩⟩

/- ## Claim C3 : circuit-breaker daily-loss trip -/

/-- While triggered, a monitor tick only sleeps: nothing is re-checked,
re-triggered or re-cancelled. -/
theorem ksTick_triggered (st : KillSwitchState) (h : st.is_triggered = true)
    (b : Option ℚ) (lat t : ℚ) (n : ℕ) : ksTick st b lat t n = st := by
  simp [ksTick, h]

/-- An untriggered tick with an in-limit balance and no latency signal
only adopts the new balance. -/
theorem ksTick_no_trip (st : KillSwitchState) (b t : ℚ) (n : ℕ)
    (h0 : st.is_triggered = false)
    (hlat : st.latency_samples = [])
    (hb : ¬(0 < st.daily_start_balance ∧
        (st.daily_start_balance - b) / st.daily_start_balance >
          maxDailyLossRatio)) :
    ksTick st (some b) 0 t n = { st with current_balance := b } := by
  unfold ksTick
  rw [if_neg (by rw [h0]; exact Bool.false_ne_true)]
  unfold ksUpdateData
  rw [if_neg (by norm_num : ¬(0:ℚ) < 0)]
  unfold ksCheckConditions
  rw [if_neg hb, if_neg (by simp [hlat])]

/-- An untriggered tick whose balance pushes the daily loss strictly past
the 5 % limit trips: flag set, reason "daily_loss", time recorded, one
cancel sweep issued covering all `n` known positions. -/
theorem ksTick_trips (st : KillSwitchState) (b t : ℚ) (n : ℕ)
    (h0 : st.is_triggered = false)
    (hB : 0 < st.daily_start_balance)
    (hloss : (st.daily_start_balance - b) / st.daily_start_balance >
        maxDailyLossRatio) :
    ksTick st (some b) 0 t n =
      { st with current_balance := b, is_triggered := true,
                trigger_reason := "daily_loss", trigger_time := some t,
                cancel_sweeps := st.cancel_sweeps + 1,
                cancel_calls := st.cancel_calls + n } := by
  unfold ksTick
  rw [if_neg (by rw [h0]; exact Bool.false_ne_true)]
  unfold ksUpdateData
  rw [if_neg (by norm_num : ¬(0:ℚ) < 0)]
  unfold ksCheckConditions
  rw [if_pos ⟨hB, hloss⟩]
  rfl

/-- Claim C3: driving the daily loss ratio from within limits strictly
past the 5 % threshold via successive balance updates makes the kill
switch transition `triggered = false → true` exactly once, record reason
"daily_loss" and the trigger time, and issue the cancel-all sweep exactly
once per trip (one `cancel_all_orders` call per known position); once
triggered, every further monitor tick — whatever its inputs — leaves the
state untouched (no repeated cancels, no time-based recovery), trading is
gated off via `is_safe`, and only the explicit `reset()` clears the flag. -/
theorem kill_switch_daily_loss_trip (s0 : KillSwitchState) (bfinal tf : ℚ)
    (npos : ℕ) (pre : List (ℚ × ℚ × ℕ)) (post : List (Option ℚ × ℚ × ℚ × ℕ))
    (h0 : s0.is_triggered = false)
    (hBpos : 0 < s0.daily_start_balance)
    (hlat : s0.latency_samples = [])
    (hpre : ∀ x ∈ pre, (s0.daily_start_balance - x.1) / s0.daily_start_balance ≤
        maxDailyLossRatio)
    (hfin : (s0.daily_start_balance - bfinal) / s0.daily_start_balance >
        maxDailyLossRatio) :
    (pre.foldl (fun st x => ksTick st (some x.1) 0 x.2.1 x.2.2) s0).is_triggered
      = false ∧
    ksTick (pre.foldl (fun st x => ksTick st (some x.1) 0 x.2.1 x.2.2) s0)
        (some bfinal) 0 tf npos =
      { s0 with
          current_balance := bfinal, is_triggered := true,
          trigger_reason := "daily_loss", trigger_time := some tf,
          cancel_sweeps := s0.cancel_sweeps + 1,
          cancel_calls := s0.cancel_calls + npos } ∧
    post.foldl (fun st x => ksTick st x.1 x.2.1 x.2.2.1 x.2.2.2)
        (ksTick (pre.foldl (fun st x => ksTick st (some x.1) 0 x.2.1 x.2.2) s0)
          (some bfinal) 0 tf npos) =
      ksTick (pre.foldl (fun st x => ksTick st (some x.1) 0 x.2.1 x.2.2) s0)
        (some bfinal) 0 tf npos ∧
    ksIsSafe (ksTick (pre.foldl (fun st x => ksTick st (some x.1) 0 x.2.1 x.2.2) s0)
        (some bfinal) 0 tf npos) = false ∧
    (ksReset (ksTick (pre.foldl (fun st x => ksTick st (some x.1) 0 x.2.1 x.2.2) s0)
        (some bfinal) 0 tf npos)).is_triggered = false := by
  -- one pre-trip tick only refreshes the balance
  have hstep : ∀ (c : ℚ) (x : ℚ × ℚ × ℕ),
      (s0.daily_start_balance - x.1) / s0.daily_start_balance ≤
        maxDailyLossRatio →
      ksTick { s0 with current_balance := c } (some x.1) 0 x.2.1 x.2.2 =
        { s0 with current_balance := x.1 } := by
    intro c x hx
    have h1 := ksTick_no_trip { s0 with current_balance := c } x.1 x.2.1 x.2.2
      h0 hlat (fun hc => absurd hc.2 (not_lt.mpr hx))
    exact h1.trans rfl
  have hfold : ∀ (l : List (ℚ × ℚ × ℕ)) (c : ℚ),
      (∀ x ∈ l, (s0.daily_start_balance - x.1) / s0.daily_start_balance ≤
          maxDailyLossRatio) →
      ∃ c', l.foldl (fun st x => ksTick st (some x.1) 0 x.2.1 x.2.2)
          { s0 with current_balance := c } =
        { s0 with current_balance := c' } := by
    intro l
    induction l with
    | nil => exact fun c _ => ⟨c, rfl⟩
    | cons x xs ih =>
      intro c hl
      simp only [List.foldl_cons, hstep c x (hl x (by simp))]
      exact ih x.1 (fun y hy => hl y (List.mem_cons_of_mem x hy))
  obtain ⟨c1, hc1⟩ := hfold pre s0.current_balance hpre
  have hc1' : pre.foldl (fun st x => ksTick st (some x.1) 0 x.2.1 x.2.2) s0 =
      { s0 with current_balance := c1 } := by
    exact (rfl :
      pre.foldl (fun st x => ksTick st (some x.1) 0 x.2.1 x.2.2) s0 =
      pre.foldl (fun st x => ksTick st (some x.1) 0 x.2.1 x.2.2)
        { s0 with current_balance := s0.current_balance }).trans hc1
  have hpost : ∀ (l : List (Option ℚ × ℚ × ℚ × ℕ)) (st : KillSwitchState),
      st.is_triggered = true →
      l.foldl (fun st x => ksTick st x.1 x.2.1 x.2.2.1 x.2.2.2) st = st := by
    intro l
    induction l with
    | nil => intro st _; rfl
    | cons x xs ih =>
      intro st h
      simp only [List.foldl_cons, ksTick_triggered st h]
      exact ih st h
  rw [hc1']
  have htrip : ksTick { s0 with current_balance := c1 } (some bfinal) 0 tf npos =
      { s0 with
          current_balance := bfinal, is_triggered := true,
          trigger_reason := "daily_loss", trigger_time := some tf,
          cancel_sweeps := s0.cancel_sweeps + 1,
          cancel_calls := s0.cancel_calls + npos } := by
    have h2 := ksTick_trips { s0 with current_balance := c1 } bfinal tf npos
      h0 hBpos hfin
    exact h2.trans rfl
  rw [htrip]
  exact ⟨h0, rfl, hpost post _ rfl, rfl, rfl⟩

/-- A fresh kill-switch state with daily start balance 100. -/
def ksStart : KillSwitchState :=
  { is_triggered := false, trigger_reason := "", trigger_time := none
    daily_start_balance := 100, current_balance := 100
    latency_samples := [], cancel_sweeps := 0, cancel_calls := 0 }

/-- Witness for C3: balances 98, 97 stay within the 5 % limit, 94 (−6 %)
trips once with reason "daily_loss" and a single cancel sweep. -/
theorem kill_switch_daily_loss_trip_witness :
    ksStart.is_triggered = false ∧
    (ksStart.daily_start_balance - 94) / ksStart.daily_start_balance >
      maxDailyLossRatio ∧
    ksTick ([((98 : ℚ), (1 : ℚ), (0 : ℕ)), (97, 2, 1)].foldl
        (fun st x => ksTick st (some x.1) 0 x.2.1 x.2.2) ksStart)
      (some 94) 0 7 3 =
      { ksStart with
          current_balance := 94, is_triggered := true,
          trigger_reason := "daily_loss", trigger_time := some 7,
          cancel_sweeps := ksStart.cancel_sweeps + 1,
          cancel_calls := ksStart.cancel_calls + 3 } :=
  ⟨rfl, by decide,
   (kill_switch_daily_loss_trip ksStart 94 7 3 [(98, 1, 0), (97, 2, 1)]
      [(some 50, 9, 11, 4)] rfl (by decide) rfl (by decide) (by decide)).2.1⟩

/- ## Claim C7 : snapshot recomputation -/

theorem dequePush_no_evict {α : Type} (cap : ℕ) (l : List α) (e : α)
    (h : l.length + 1 ≤ cap) : dequePush cap l e = l ++ [e] := by
  unfold dequePush
  have hlt : ¬ cap < (l ++ [e]).length := by
    simp only [List.length_append, List.length_cons, List.length_nil]
    omega
  rw [if_neg hlt]

theorem filter_replicate_pos {α : Type} (p : α → Bool) (e : α) (k : ℕ)
    (h : p e = true) : (List.replicate k e).filter p = List.replicate k e := by
  induction k with
  | zero => rfl
  | succ n ih => simp [List.replicate_succ, List.filter_cons, h, ih]

theorem getLast?_replicate_succ {α : Type} (e : α) (k : ℕ) :
    (List.replicate (k + 1) e).getLast? = some e := by
  induction k with
  | zero => rfl
  | succ n ih =>
    rw [List.replicate_succ, List.replicate_succ, List.getLast?_cons_cons,
      ← List.replicate_succ]
    exact ih

theorem getLast?_append_replicate {α : Type} (l : List α) (e : α) (k : ℕ) :
    (l ++ List.replicate (k + 1) e).getLast? = some e := by
  rw [List.getLast?_append, getLast?_replicate_succ]
  rfl

theorem sizeChange_cons_append (f0 : BASample) (F' X : List BASample)
    (e : BASample) (hX : X.getLast? = some e) :
    sizeChange ((f0 :: F') ++ X) = e.size - f0.size := by
  unfold sizeChange
  rw [List.getLast?_append, hX, List.cons_append, List.head?_cons]
  rfl

theorem sizeChange_replicate (e : BASample) (n : ℕ) :
    sizeChange (List.replicate (n + 1) e) = 0 := by
  unfold sizeChange
  rw [getLast?_replicate_succ, List.replicate_succ, List.head?_cons]
  simp

/-- Two histories appended in lockstep have in-window sample counts that
agree whenever their timestamp sequences agree. -/
theorem filter_time_length (f : ℚ → Bool) (l1 l2 : List BASample)
    (h : l1.map BASample.time = l2.map BASample.time) :
    (l1.filter (fun x => f x.time)).length =
    (l2.filter (fun x => f x.time)).length := by
  rw [← List.countP_eq_length_filter, ← List.countP_eq_length_filter]
  have h1 := List.countP_map f BASample.time l1
  have h2 := List.countP_map f BASample.time l2
  calc l1.countP (fun x => f x.time)
      = (l1.map BASample.time).countP f := h1.symm
    _ = (l2.map BASample.time).countP f := by rw [h]
    _ = l2.countP (fun x => f x.time) := h2

/-- The windowed OFI read off histories that end in `k+1` copies of the
current best-bid/best-ask samples does not depend on `k`: the last
in-window sample is the current one and the first is unchanged. -/
theorem ofiValue_blocks (w now : ℚ) (hb ha : List BASample) (e a : BASample)
    (he : now - e.time ≤ w) (haw : now - a.time ≤ w)
    (hlen : (hb.filter (fun x => now - x.time ≤ w)).length =
            (ha.filter (fun x => now - x.time ≤ w)).length)
    (k j : ℕ) :
    ofiValue w now (hb ++ List.replicate (k + 1) e)
      (ha ++ List.replicate (k + 1) a) =
    ofiValue w now (hb ++ List.replicate (j + 1) e)
      (ha ++ List.replicate (j + 1) a) := by
  have hpe : (fun b => decide (now - b.time ≤ w)) e = true := by
    simp [he]
  have hpa : (fun b => decide (now - b.time ≤ w)) a = true := by
    simp [haw]
  have key : ∀ (m : ℕ),
      ofiValue w now (hb ++ List.replicate (m + 1) e)
        (ha ++ List.replicate (m + 1) a) =
      (match (hb.filter (fun x => decide (now - x.time ≤ w))).head?,
             (ha.filter (fun x => decide (now - x.time ≤ w))).head? with
       | some f0, some g0 => (e.size - f0.size) - (a.size - g0.size)
       | _, _ => 0) := by
    intro m
    unfold ofiValue
    dsimp only
    rw [List.filter_append, List.filter_append,
      filter_replicate_pos (fun b => decide (now - b.time ≤ w)) e (m + 1)
        (by simp [he]),
      filter_replicate_pos (fun b => decide (now - b.time ≤ w)) a (m + 1)
        (by simp [haw])]
    cases hF : (hb.filter (fun x => decide (now - x.time ≤ w))) with
    | nil =>
      have hG0 : (ha.filter (fun x => decide (now - x.time ≤ w))).length = 0 := by
        rw [← hlen, hF]
        rfl
      have hG : (ha.filter (fun x => decide (now - x.time ≤ w))) = [] :=
        List.eq_nil_of_length_eq_zero hG0
      rw [hG]
      simp only [List.nil_append, List.length_replicate]
      cases m with
      | zero => rfl
      | succ n =>
        rw [if_neg (by omega)]
        rw [sizeChange_replicate, sizeChange_replicate]
        norm_num
    | cons f0 F' =>
      have hG1 : 1 ≤ (ha.filter (fun x => decide (now - x.time ≤ w))).length := by
        rw [← hlen, hF]
        simp
      obtain ⟨g0, G', hG⟩ : ∃ g0 G',
          (ha.filter (fun x => decide (now - x.time ≤ w))) = g0 :: G' := by
        cases hG : (ha.filter (fun x => decide (now - x.time ≤ w))) with
        | nil => rw [hG] at hG1; simp at hG1
        | cons g0 G' => exact ⟨g0, G', rfl⟩
      rw [hG]
      rw [if_neg (by
        simp only [List.length_append, List.length_cons, List.length_replicate,
          not_or, not_lt]
        omega)]
      rw [sizeChange_cons_append f0 F' _ e (getLast?_replicate_succ e m),
          sizeChange_cons_append g0 G' _ a (getLast?_replicate_succ a m)]
      rfl
  rw [key k, key j]

/-- The sample `calculate_ofi` records into `bids_history`. -/
def curBid (s : Book) (now : ℚ) : BASample :=
  ⟨(get_best_bid s).1, (get_best_bid s).2, now⟩

/-- The sample `calculate_ofi` records into `asks_history`. -/
def curAsk (s : Book) (now : ℚ) : BASample :=
  ⟨(get_best_ask s).1, (get_best_ask s).2, now⟩

/-- One `calculate_ofi` call with the deques below capacity: plain
appends, no eviction. -/
theorem calculate_ofi_below_cap (s : Book) (hb ha : List BASample)
    (tf : String) (now : ℚ)
    (h1 : hb.length + 1 ≤ 100) (h2 : ha.length + 1 ≤ 100) :
    calculate_ofi s ⟨hb, ha⟩ tf now =
      (ofiValue (if tf = "1s" then 1 else 5) now
        (hb ++ [curBid s now]) (ha ++ [curAsk s now]),
       ⟨hb ++ [curBid s now], ha ++ [curAsk s now]⟩) := by
  unfold calculate_ofi
  dsimp only
  rw [dequePush_no_evict 100 hb _ h1, dequePush_no_evict 100 ha _ h2]
  rfl

/-- `calculate_features` with the deques at least two below capacity:
the two `calculate_ofi` calls append the current samples twice. -/
theorem calculate_features_below_cap (s : Book) (hb ha : List BASample)
    (now : ℚ) (h1 : hb.length + 2 ≤ 100) (h2 : ha.length + 2 ≤ 100) :
    calculate_features s ⟨hb, ha⟩ now =
      ({ best_bid := (get_best_bid s).1, bid_depth_5 := (get_best_bid s).2
         best_ask := (get_best_ask s).1, ask_depth_5 := (get_best_ask s).2
         mid_price := get_mid_price s
         spread := get_spread s
         spread_bps := get_spread_bps s
         wmp := get_wmp s
         ofi_1s := ofiValue 1 now (hb ++ [curBid s now]) (ha ++ [curAsk s now])
         ofi_5s := ofiValue 5 now (hb ++ [curBid s now] ++ [curBid s now])
                     (ha ++ [curAsk s now] ++ [curAsk s now])
         liquidity_void_above :=
           (detect_liquidity_void s "both" (2/1000)).filter (fun v => v.1 < v.2)
         liquidity_void_below :=
           (detect_liquidity_void s "both" (2/1000)).filter (fun v => v.2 < v.1)
         has_wall := (detect_wall s 50 20).isSome
         wall_side := ((detect_wall s 50 20).map (fun w => w.1)).getD ""
         wall_price := ((detect_wall s 50 20).map (fun w => w.2.1)).getD 0
         wall_depth := ((detect_wall s 50 20).map (fun w => w.2.2)).getD 0
         buy_pressure :=
           if 0 < ofiValue 1 now (hb ++ [curBid s now]) (ha ++ [curAsk s now])
           then ofiValue 1 now (hb ++ [curBid s now]) (ha ++ [curAsk s now])
           else 0
         sell_pressure :=
           if ofiValue 1 now (hb ++ [curBid s now]) (ha ++ [curAsk s now]) < 0
           then |ofiValue 1 now (hb ++ [curBid s now]) (ha ++ [curAsk s now])|
           else 0 },
       ⟨hb ++ [curBid s now] ++ [curBid s now],
        ha ++ [curAsk s now] ++ [curAsk s now]⟩) := by
  unfold calculate_features
  dsimp only
  rw [calculate_ofi_below_cap s hb ha "1s" now (by omega) (by omega)]
  dsimp only
  rw [calculate_ofi_below_cap s (hb ++ [curBid s now]) (ha ++ [curAsk s now])
    "5s" now
    (by simp only [List.length_append, List.length_cons, List.length_nil]; omega)
    (by simp only [List.length_append, List.length_cons, List.length_nil]; omega)]
  rw [show (if ("1s" : String) = "1s" then (1 : ℚ) else 5) = 1 from rfl,
      show (if ("5s" : String) = "1s" then (1 : ℚ) else 5) = 5 from rfl]

/-- Claim C7 (amended): recomputing the MicrostructureSnapshot twice at
the same instant with no intervening order-book update yields identical
values for the full feature set, provided the paired 100-sample OFI
history deques (which the code always appends in lockstep) hold at most
96 samples, so the recomputation's appends evict nothing.  Without that
headroom the second computation can evict in-window history heads and
change the OFI fields — see the counterexample. -/
theorem calculate_features_idem (s : Book) (h : OfiHist) (now : ℚ)
    (hlock : h.bids_history.map BASample.time = h.asks_history.map BASample.time)
    (hcap : h.bids_history.length ≤ 96) :
    (calculate_features s (calculate_features s h now).2 now).1 =
    (calculate_features s h now).1 := by
  obtain ⟨hb, ha⟩ := h
  dsimp only at hlock hcap
  have hlena : hb.length = ha.length := by
    have h0 := congrArg List.length hlock
    simpa using h0
  have hE1 : now - (curBid s now).time ≤ (1 : ℚ) := by
    simp [curBid]
  have hA1 : now - (curAsk s now).time ≤ (1 : ℚ) := by
    simp [curAsk]
  have hE5 : now - (curBid s now).time ≤ (5 : ℚ) := by
    simp [curBid]
  have hA5 : now - (curAsk s now).time ≤ (5 : ℚ) := by
    simp [curAsk]
  have hfl1 : (hb.filter (fun x => now - x.time ≤ (1 : ℚ))).length =
      (ha.filter (fun x => now - x.time ≤ (1 : ℚ))).length :=
    filter_time_length (fun t => decide (now - t ≤ (1 : ℚ))) hb ha hlock
  have hfl5 : (hb.filter (fun x => now - x.time ≤ (5 : ℚ))).length =
      (ha.filter (fun x => now - x.time ≤ (5 : ℚ))).length :=
    filter_time_length (fun t => decide (now - t ≤ (5 : ℚ))) hb ha hlock
  rw [calculate_features_below_cap s hb ha now (by omega) (by omega)]
  dsimp only
  rw [calculate_features_below_cap s (hb ++ [curBid s now] ++ [curBid s now])
    (ha ++ [curAsk s now] ++ [curAsk s now]) now
    (by simp only [List.length_append, List.length_cons, List.length_nil]; omega)
    (by simp only [List.length_append, List.length_cons, List.length_nil]; omega)]
  have h1 : ofiValue 1 now
      (hb ++ [curBid s now] ++ [curBid s now] ++ [curBid s now])
      (ha ++ [curAsk s now] ++ [curAsk s now] ++ [curAsk s now]) =
      ofiValue 1 now (hb ++ [curBid s now]) (ha ++ [curAsk s now]) := by
    have hx := ofiValue_blocks 1 now hb ha (curBid s now) (curAsk s now)
      hE1 hA1 hfl1 2 0
    rw [show List.replicate 3 (curBid s now) =
          [curBid s now, curBid s now, curBid s now] from rfl,
        show List.replicate 3 (curAsk s now) =
          [curAsk s now, curAsk s now, curAsk s now] from rfl,
        show List.replicate 1 (curBid s now) = [curBid s now] from rfl,
        show List.replicate 1 (curAsk s now) = [curAsk s now] from rfl] at hx
    have e1 : hb ++ [curBid s now] ++ [curBid s now] ++ [curBid s now] =
        hb ++ [curBid s now, curBid s now, curBid s now] := by
      simp only [List.append_assoc]
      rfl
    have e2 : ha ++ [curAsk s now] ++ [curAsk s now] ++ [curAsk s now] =
        ha ++ [curAsk s now, curAsk s now, curAsk s now] := by
      simp only [List.append_assoc]
      rfl
    rw [e1, e2]
    exact hx
  have h5 : ofiValue 5 now
      (hb ++ [curBid s now] ++ [curBid s now] ++ [curBid s now] ++ [curBid s now])
      (ha ++ [curAsk s now] ++ [curAsk s now] ++ [curAsk s now] ++ [curAsk s now]) =
      ofiValue 5 now (hb ++ [curBid s now] ++ [curBid s now])
        (ha ++ [curAsk s now] ++ [curAsk s now]) := by
    have hx := ofiValue_blocks 5 now hb ha (curBid s now) (curAsk s now)
      hE5 hA5 hfl5 3 1
    rw [show List.replicate 4 (curBid s now) =
          [curBid s now, curBid s now, curBid s now, curBid s now] from rfl,
        show List.replicate 4 (curAsk s now) =
          [curAsk s now, curAsk s now, curAsk s now, curAsk s now] from rfl,
        show List.replicate 2 (curBid s now) = [curBid s now, curBid s now] from rfl,
        show List.replicate 2 (curAsk s now) = [curAsk s now, curAsk s now] from rfl]
      at hx
    have e1 : hb ++ [curBid s now] ++ [curBid s now] ++ [curBid s now] ++
        [curBid s now] =
        hb ++ [curBid s now, curBid s now, curBid s now, curBid s now] := by
      simp only [List.append_assoc]
      rfl
    have e2 : ha ++ [curAsk s now] ++ [curAsk s now] ++ [curAsk s now] ++
        [curAsk s now] =
        ha ++ [curAsk s now, curAsk s now, curAsk s now, curAsk s now] := by
      simp only [List.append_assoc]
      rfl
    have e3 : hb ++ [curBid s now] ++ [curBid s now] =
        hb ++ [curBid s now, curBid s now] := by
      simp only [List.append_assoc]
      rfl
    have e4 : ha ++ [curAsk s now] ++ [curAsk s now] =
        ha ++ [curAsk s now, curAsk s now] := by
      simp only [List.append_assoc]
      rfl
    rw [e1, e2, e3, e4]
    exact hx
  rw [h1, h5]

/-- Witness for C7 at a concrete book and empty histories. -/
theorem calculate_features_idem_witness :
    (⟨[], []⟩ : OfiHist).bids_history.map BASample.time =
      (⟨[], []⟩ : OfiHist).asks_history.map BASample.time ∧
    (⟨[], []⟩ : OfiHist).bids_history.length ≤ 96 ∧
    (calculate_features bkBidAsk (calculate_features bkBidAsk ⟨[], []⟩ 0).2 0).1 =
      (calculate_features bkBidAsk ⟨[], []⟩ 0).1 :=
  ⟨rfl, by decide, calculate_features_idem bkBidAsk ⟨[], []⟩ 0 rfl (by decide)⟩

/-- Book for the C7 counterexample: best bid (100, 50), best ask (101, 7). -/
def cxBook : Book :=
  { bids := [(100, ⟨100, 50, 1, false⟩)], asks := [(101, ⟨101, 7, 1, false⟩)]
    sorted_bids := [-100], sorted_asks := [101]
    checksum := 0, update_count := 0, error_count := 0 }

/-- An old best-bid history sample (all at time 0). -/
def cxSample (sz : ℚ) : BASample := ⟨100, sz, 0⟩

/-- Histories at full 100-sample capacity whose oldest in-window entries
have different sizes, so each recomputation's appends evict a head that
the windowed OFI still reads. -/
def cxHist : OfiHist :=
  ⟨[cxSample 10, cxSample 20, cxSample 30, cxSample 40] ++
     List.replicate 96 (cxSample 50),
   List.replicate 100 ⟨101, 7, 0⟩⟩

set_option maxRecDepth 100000 in
/-- Counterexample to C7 as stated: with the history deques at capacity,
recomputing the snapshot twice without any book update yields different
values (here `ofi_1s` is 30 then 10 and `ofi_5s` is 20 then 0), because
`calculate_ofi` mutates the bounded deques on every call. -/
theorem calculate_features_not_idempotent :
    (calculate_features cxBook (calculate_features cxBook cxHist 0).2 0).1 ≠
      (calculate_features cxBook cxHist 0).1 ∧
    (calculate_features cxBook cxHist 0).1.ofi_5s = 20 ∧
    (calculate_features cxBook (calculate_features cxBook cxHist 0).2 0).1.ofi_5s
      = 0 := by
  refine ⟨by decide, by decide, by decide⟩
